import Mathlib

/-!
Shallow embedding of `src/decorator_type_propagation.py`.

The script defines:
* `is_prime (number : int) : bool` — trial division up to `int(sqrt(number))`;
* `count_prime_numbers (upper_bound : int) : int` — counts primes in
  `range(upper_bound)`;
* two decorators `with_logging` and `benchmark` that wrap an arbitrary
  callable, emit log entries around the delegated call, and copy the wrapped
  function's `__name__` via `functools.wraps`;
* the decorated `count_prime_numbers` is `with_logging(benchmark(...))`.

Python integers are embedded as `Int`.  `int(math.sqrt(number))` is embedded
as the exact integer square root (the float computation is exact on the
ranges a double represents exactly); it is realised by the structurally
recursive `isqrtDown` and proved equal to `Nat.sqrt` below.  Python's
`range(a, b)` is embedded as `pyRange a b`.  The side effects of the
decorators (calls to `logging.info`) are embedded as a list of `LogEntry`
values returned next to the result, and a callable that may raise is
embedded as returning `Except ε`; the wall-clock timestamps taken by
`benchmark` are not modelled, only the timing log entry they produce.
-/

/-- Python `range(a, b)`: the integers `a, a+1, …, b-1`, empty when `b ≤ a`. -/
def pyRange (a b : Int) : List Int :=
  (List.range (b - a).toNat).map (fun (i : Nat) => a + (i : Int))

/-- Largest `j ≤ k` with `j * j ≤ n` (and `0` when none), by downward search.
Structurally recursive so that the kernel can evaluate it. -/
def isqrtDown (n : Nat) : Nat → Nat
  | 0 => 0
  | k + 1 => if (k + 1) * (k + 1) ≤ n then k + 1 else isqrtDown n k

/-- Embedding of Python's `int(sqrt(number))` for nonnegative `number`:
the exact integer square root. -/
def int_sqrt (number : Int) : Int :=
  Int.ofNat (isqrtDown number.toNat number.toNat)

/-- Embedding of `is_prime` (lines 60-66 of the source):
`if number < 2: return False`, then trial division by every `element` in
`range(2, int(sqrt(number)) + 1)`, returning `False` on the first exact
divisor and `True` when none is found. -/
def is_prime (number : Int) : Bool :=
  if number < 2 then false
  else (pyRange 2 (int_sqrt number + 1)).all (fun element => number % element != 0)

/-- Embedding of the undecorated `count_prime_numbers` (lines 71-76):
`count = 0; for number in range(upper_bound): if is_prime(number): count += 1`. -/
def count_prime_numbers (upper_bound : Int) : Int :=
  (pyRange 0 upper_bound).foldl
    (fun count number => if is_prime number then count + 1 else count) 0

/-- The exceptions `math.sqrt` raises: `ValueError` (math domain error) on a
negative argument, and `OverflowError` (int too large to convert to float)
when the integer argument does not fit in a C double. -/
inductive PyExc where
  | valueError
  | overflowError
deriving DecidableEq

/-- Smallest magnitude at which CPython's int-to-double conversion overflows:
round-half-even sends every integer of magnitude at least
`2^1024 - 2^970` to `2^1024`, past `DBL_MAX = 2^1024 - 2^971`.  Written as a
numeral so that the kernel can evaluate comparisons against it; the lemma
`float_overflow_threshold_eq` below checks it against the power form. -/
def float_overflow_threshold : Int :=
  179769313486231580793728971405303415079934132710037826936173778980444968292764750946649017977587207096330286416692887910946555547851940402630657488671505820681908902000708383676273854845817711531764475730270069855571366959622842914819860834936475292719074168444365510704342711559699508093042880177904174497792

/-- Embedding of `int(math.sqrt(number))` with its fallibility made explicit.
`math.sqrt` first converts the int argument to a C double, raising
`OverflowError` when its magnitude reaches `float_overflow_threshold`; a
representable negative argument then raises `ValueError`.  On the remaining
arguments the float computation is embedded as the exact integer square
root `int_sqrt`, as in `is_prime`. -/
def math_sqrt_int (number : Int) : Except PyExc Int :=
  if float_overflow_threshold ≤ number ∨ number ≤ -float_overflow_threshold then
    Except.error PyExc.overflowError
  else if number < 0 then Except.error PyExc.valueError
  else Except.ok (int_sqrt number)

/-- Embedding of `is_prime` with the fallibility of `math.sqrt` kept explicit,
mirroring the source's control flow: the `number < 2` guard returns before
`sqrt` is applied. -/
def is_primeE (number : Int) : Except PyExc Bool :=
  if number < 2 then Except.ok false
  else
    (math_sqrt_int number).bind (fun root =>
      Except.ok ((pyRange 2 (root + 1)).all (fun element => number % element != 0)))

/-- One record written to the logging sink: the `"Calling {name}"` entry, the
`"Finished {name}"` entry, or the `"Execution of {name} took … seconds."`
entry (the elapsed-seconds payload is not modelled). -/
inductive LogEntry where
  | calling (name : String)
  | finished (name : String)
  | timing (name : String)
deriving DecidableEq

/-- A Python callable as the decorators see it: its `__name__`, and a `run`
function from the (tupled) arguments to a result or a raised exception,
together with the log entries the call emitted, in order. -/
structure Callable (ε α β : Type) where
  name : String
  run : α → Except ε β × List LogEntry

/-- Embedding of `with_logging` (lines 30-41): the wrapper logs
`"Calling {func.__name__}"`, delegates, logs `"Finished {func.__name__}"`,
and returns the delegated value; if the delegate raises, the exception
propagates before the `Finished` entry is logged.  `functools.wraps`
copies the wrapped function's name. -/
def with_logging {ε α β : Type} (func : Callable ε α β) : Callable ε α β where
  name := func.name
  run := fun args =>
    match func.run args with
    | (Except.ok value, inner) =>
        (Except.ok value,
          LogEntry.calling func.name :: inner ++ [LogEntry.finished func.name])
    | (Except.error e, inner) =>
        (Except.error e, LogEntry.calling func.name :: inner)

/-- Embedding of `benchmark` (lines 45-57): the wrapper takes timestamps
around the delegated call and logs one timing entry after it returns; if the
delegate raises, the exception propagates before the timing entry is logged.
`functools.wraps` copies the wrapped function's name. -/
def benchmark {ε α β : Type} (func : Callable ε α β) : Callable ε α β where
  name := func.name
  run := fun args =>
    match func.run args with
    | (Except.ok value, inner) =>
        (Except.ok value, inner ++ [LogEntry.timing func.name])
    | (Except.error e, inner) =>
        (Except.error e, inner)

/-- The bare `count_prime_numbers` as a callable: pure, never raises,
emits no log entries of its own. -/
def count_prime_numbers_fn : Callable PyExc Int Int where
  name := "count_prime_numbers"
  run := fun upper_bound => (Except.ok (count_prime_numbers upper_bound), [])

/-- The decorated `count_prime_numbers` of the source (lines 69-71):
`benchmark` innermost, `with_logging` outermost. -/
def count_prime_numbers_decorated : Callable PyExc Int Int :=
  with_logging (benchmark count_prime_numbers_fn)

/-- A callable that always raises, used to exercise the exception path. -/
def failing_callable : Callable String Unit Unit where
  name := "boom"
  run := fun _ => (Except.error "err", [])

/-! ### Bridge lemmas -/

lemma isqrtDown_sq_le (n : Nat) : ∀ k, isqrtDown n k * isqrtDown n k ≤ n := by
  intro k
  induction k with
  | zero => simp [isqrtDown]
  | succ k ih =>
    rw [isqrtDown]
    split
    · assumption
    · exact ih

lemma le_isqrtDown (n : Nat) : ∀ k j, j ≤ k → j * j ≤ n → j ≤ isqrtDown n k := by
  intro k
  induction k with
  | zero => intro j hj _; simpa [isqrtDown] using hj
  | succ k ih =>
    intro j hj hsq
    by_cases hc : (k + 1) * (k + 1) ≤ n
    · rw [isqrtDown, if_pos hc]
      exact hj
    · rw [isqrtDown, if_neg hc]
      rcases Nat.lt_or_ge j (k + 1) with h | h
      · exact ih j (by omega) hsq
      · have hj1 : j = k + 1 := by omega
        subst hj1
        exact absurd hsq hc

lemma isqrtDown_eq_sqrt (n : Nat) : isqrtDown n n = Nat.sqrt n := by
  refine Nat.le_antisymm ?_ ?_
  · exact Nat.le_sqrt.mpr (isqrtDown_sq_le n n)
  · exact le_isqrtDown n n (Nat.sqrt n) (Nat.sqrt_le_self n) (Nat.sqrt_le n)

lemma int_sqrt_eq_sqrt (n : Int) : int_sqrt n = Int.sqrt n := by
  simp [int_sqrt, Int.sqrt, isqrtDown_eq_sqrt]

lemma mem_pyRange {a b x : Int} : x ∈ pyRange a b ↔ a ≤ x ∧ x < b := by
  unfold pyRange
  rw [List.mem_map]
  constructor
  · rintro ⟨i, hi, rfl⟩
    rw [List.mem_range] at hi
    omega
  · rintro ⟨h1, h2⟩
    refine ⟨(x - a).toNat, ?_, ?_⟩
    · rw [List.mem_range]
      omega
    · omega

lemma is_prime_true_iff_forall (n : Int) (h2 : 2 ≤ n) :
    is_prime n = true ↔ ∀ d : Int, 2 ≤ d → d ≤ Int.sqrt n → ¬ d ∣ n := by
  rw [is_prime, if_neg (by omega : ¬ n < 2), List.all_eq_true]
  constructor
  · intro H d hd1 hd2 hdvd
    have hmem : d ∈ pyRange 2 (int_sqrt n + 1) :=
      mem_pyRange.mpr ⟨hd1, by rw [int_sqrt_eq_sqrt]; omega⟩
    have hne := H d hmem
    rw [bne_iff_ne] at hne
    exact hne (Int.emod_eq_zero_of_dvd hdvd)
  · intro H d hd
    rcases mem_pyRange.mp hd with ⟨hd1, hd2⟩
    rw [bne_iff_ne]
    intro h0
    exact H d hd1 (by rw [int_sqrt_eq_sqrt] at hd2; omega)
      (Int.dvd_of_emod_eq_zero h0)

lemma int_sqrt_cast (n : Int) : Int.sqrt n = ((Nat.sqrt n.toNat : Nat) : Int) := rfl

lemma is_prime_true_iff_natPrime (n : Int) : is_prime n = true ↔ n.toNat.Prime := by
  rcases lt_or_le n 2 with h | h
  · rw [is_prime, if_pos h]
    constructor
    · intro hfalse
      exact absurd hfalse (by simp)
    · intro hp
      exact absurd hp.two_le (by omega)
  · rw [is_prime_true_iff_forall n h, Nat.prime_def_le_sqrt]
    have hcast : ((n.toNat : Nat) : Int) = n := Int.toNat_of_nonneg (by omega)
    constructor
    · intro H
      refine ⟨by omega, fun m hm1 hm2 hdvd => ?_⟩
      refine H (m : Int) (by exact_mod_cast hm1) ?_ ?_
      · rw [int_sqrt_cast]
        exact_mod_cast hm2
      · rw [← hcast]
        exact_mod_cast hdvd
    · rintro ⟨-, H⟩ d hd1 hd2 hdvd
      have hdc : ((d.toNat : Nat) : Int) = d := Int.toNat_of_nonneg (by omega)
      refine H d.toNat (by omega) ?_ ?_
      · rw [int_sqrt_cast] at hd2
        omega
      · rw [← hcast, ← hdc] at hdvd
        exact_mod_cast hdvd

lemma is_prime_natCast (x : Nat) : is_prime (x : Int) = decide x.Prime := by
  have h := is_prime_true_iff_natPrime (x : Int)
  rw [Int.toNat_natCast] at h
  by_cases hp : x.Prime
  · rw [h.mpr hp]
    simp [hp]
  · cases hb : is_prime (x : Int) with
    | false => simp [hp]
    | true => exact absurd (h.mp hb) hp

lemma foldl_count_eq (l : List Int) : ∀ c : Int,
    l.foldl (fun count number => if is_prime number then count + 1 else count) c
      = c + ((l.countP (fun number => is_prime number) : Nat) : Int) := by
  induction l with
  | nil =>
    intro c
    simp
  | cons a l ih =>
    intro c
    rw [List.foldl_cons, List.countP_cons, ih]
    by_cases ha : is_prime a = true
    · simp only [ha, if_true]
      push_cast
      ring
    · simp only [ha, if_false, Bool.false_eq_true]
      push_cast
      ring

lemma pyRange_zero (b : Int) :
    pyRange 0 b = (List.range b.toNat).map (fun (i : Nat) => (i : Int)) := by
  unfold pyRange
  simp

lemma count_prime_numbers_eq (b : Int) :
    count_prime_numbers b = ((Nat.count Nat.Prime b.toNat : Nat) : Int) := by
  rw [count_prime_numbers, foldl_count_eq, zero_add, pyRange_zero, List.countP_map,
    Nat.count]
  congr 1
  apply List.countP_congr
  intro x _
  simp only [Function.comp_apply, is_prime_natCast]

lemma is_prime_eq_false_of_lt_two (n : Int) (h : n < 2) : is_prime n = false := by
  rw [is_prime, if_pos h]

lemma float_overflow_threshold_eq :
    float_overflow_threshold = 2 ^ 1024 - 2 ^ 970 := by
  norm_num [float_overflow_threshold]

/-! ### Claims -/

/-- C1: for every integer bound, `count_prime_numbers bound` is the number of
prime integers in the half-open range `[0, bound)` — formalised as
`Nat.count Nat.Prime bound.toNat`, the number of primes strictly below
`bound.toNat` (a negative integer is never prime, so these coincide) — and in
particular every negative or zero bound yields `0`. -/
theorem count_prime_numbers_correct (bound : Int) :
    count_prime_numbers bound = ((Nat.count Nat.Prime bound.toNat : Nat) : Int) ∧
    (bound ≤ 0 → count_prime_numbers bound = 0) := by
  refine ⟨count_prime_numbers_eq bound, fun hb => ?_⟩
  rw [count_prime_numbers_eq]
  have h0 : bound.toNat = 0 := by omega
  rw [h0]
  simp

/-- Witness for C1, applied at the negative bound `-3`. -/
theorem count_prime_numbers_correct_witness :
    count_prime_numbers (-3) = 0 :=
  (count_prime_numbers_correct (-3)).2 (by decide)

/-- C2: for every integer `n ≥ 2`, `is_prime n` returns `true` iff `n` has no
integer divisor `d` with `2 ≤ d` and `d ≤ Int.sqrt n`, the integer square
root of `n`. -/
theorem is_prime_trial_division (n : Int) (h : 2 ≤ n) :
    is_prime n = true ↔ ¬ ∃ d : Int, 2 ≤ d ∧ d ≤ Int.sqrt n ∧ d ∣ n := by
  rw [is_prime_true_iff_forall n h]
  constructor
  · rintro H ⟨d, hd1, hd2, hdvd⟩
    exact H d hd1 hd2 hdvd
  · intro H d hd1 hd2 hdvd
    exact H ⟨d, hd1, hd2, hdvd⟩

/-- Witness for C2 at `n = 7`. -/
theorem is_prime_trial_division_witness :
    2 ≤ (7 : Int) ∧
      (is_prime 7 = true ↔ ¬ ∃ d : Int, 2 ≤ d ∧ d ≤ Int.sqrt 7 ∧ d ∣ 7) :=
  ⟨by decide, is_prime_trial_division 7 (by decide)⟩

/-- C3: for every integer `n < 2` (all negative integers, `0` and `1`
included), `is_prime n` returns `false`. -/
theorem is_prime_below_two (n : Int) (h : n < 2) : is_prime n = false :=
  is_prime_eq_false_of_lt_two n h

/-- Witness for C3 at `n = -7`. -/
theorem is_prime_below_two_witness :
    (-7 : Int) < 2 ∧ is_prime (-7) = false :=
  ⟨by decide, is_prime_below_two (-7) (by decide)⟩

/-- C4: the concrete values of the counting routine:
`count_prime_numbers 0 = 0`, `count_prime_numbers 1 = 0`,
`count_prime_numbers 10 = 4`, and `count_prime_numbers 50000` equals the
prime-counting function value `π(49999)` (`Nat.primeCounting 49999`). -/
theorem count_prime_numbers_values :
    count_prime_numbers 0 = 0 ∧ count_prime_numbers 1 = 0 ∧
      count_prime_numbers 10 = 4 ∧
      count_prime_numbers 50000 = ((Nat.primeCounting 49999 : Nat) : Int) := by
  refine ⟨by decide, by decide, by decide, ?_⟩
  rw [count_prime_numbers_eq]
  congr 1

/-- C5: for every callable `f` and every argument value, the callable
`with_logging f` delegates to `f` exactly once with exactly those arguments
and returns `f`'s result unmodified, and `benchmark f` does the same, so both
wrapped callables are extensionally equal to `f` on return values.  The
"exactly once with exactly those arguments" part is visible in the log
conjuncts: the wrapped call's log is the single trace `(f.run args).2` of
the delegated call, surrounded only by the wrapper's own entries. -/
theorem wrappers_pass_through {ε α β : Type} (f : Callable ε α β) (args : α) :
    ((with_logging f).run args).1 = (f.run args).1 ∧
    ((benchmark f).run args).1 = (f.run args).1 ∧
    ((with_logging f).run args).2 =
      LogEntry.calling f.name :: (f.run args).2 ++
        (match (f.run args).1 with
          | Except.ok _ => [LogEntry.finished f.name]
          | Except.error _ => []) ∧
    ((benchmark f).run args).2 =
      (f.run args).2 ++
        (match (f.run args).1 with
          | Except.ok _ => [LogEntry.timing f.name]
          | Except.error _ => []) := by
  rcases hf : f.run args with ⟨res, inner⟩
  cases res <;> simp [with_logging, benchmark, hf]

/-- C6: when the wrapped callable raises, both wrappers propagate the
exception unchanged, `with_logging` emits no `Finished` entry (only the
`Calling` entry that precedes the delegated call), and `benchmark` emits no
timing entry. -/
theorem wrappers_propagate_exceptions {ε α β : Type} (f : Callable ε α β)
    (args : α) (e : ε) (inner : List LogEntry)
    (h : f.run args = (Except.error e, inner)) :
    (with_logging f).run args =
        (Except.error e, LogEntry.calling f.name :: inner) ∧
      (benchmark f).run args = (Except.error e, inner) := by
  constructor <;> simp [with_logging, benchmark, h]

/-- Witness for C6 on a callable that always raises. -/
theorem wrappers_propagate_exceptions_witness :
    (with_logging failing_callable).run () =
        (Except.error "err", [LogEntry.calling "boom"]) ∧
      (benchmark failing_callable).run () = (Except.error "err", []) :=
  wrappers_propagate_exceptions failing_callable () "err" [] rfl

/-- C7: every (always normal) invocation of the composed
`count_prime_numbers` — `benchmark` innermost, `with_logging` outermost —
returns the delegated count and emits exactly three log entries, in this
order: the `Calling` entry, the timing entry, the `Finished` entry. -/
theorem decorated_count_log_order (upper_bound : Int) :
    count_prime_numbers_decorated.run upper_bound =
      (Except.ok (count_prime_numbers upper_bound),
        [LogEntry.calling "count_prime_numbers",
          LogEntry.timing "count_prime_numbers",
          LogEntry.finished "count_prime_numbers"]) := rfl

/-- C8: both wrapper layers report the wrapped callable's own name —
`functools.wraps` copies `__name__` — and the composed `count_prime_numbers`
therefore reports the original name, not a generic wrapper name.  (The log
entries of C5-C7 carry the same `f.name`.) -/
theorem wrappers_preserve_name {ε α β : Type} (f : Callable ε α β) :
    (with_logging f).name = f.name ∧ (benchmark f).name = f.name ∧
      count_prime_numbers_decorated.name = "count_prime_numbers" :=
  ⟨rfl, rfl, rfl⟩

/-- C9, counterexample: `is_prime` is not total on all integers.  At
`2 ^ 1024` the `number < 2` guard does not fire, `math.sqrt` is reached, and
its int-to-double conversion raises `OverflowError`, so the call raises
instead of returning a boolean. -/
theorem is_primeE_overflow_counterexample :
    is_primeE (2 ^ 1024) = Except.error PyExc.overflowError := by
  rw [is_primeE, if_neg (by norm_num : ¬ (2 : Int) ^ 1024 < 2), math_sqrt_int,
    if_pos (Or.inl (by norm_num [float_overflow_threshold]))]
  rfl

/-- C9, amended: `is_prime` returns a boolean without raising for every
integer whose conversion to a C double does not overflow, i.e. every
`n < float_overflow_threshold` — in particular for every negative integer,
however large in magnitude, because the `n < 2` guard returns before `sqrt`
is ever applied to a negative number — and on all such inputs `is_primeE`
agrees with the pure `is_prime`. -/
theorem is_primeE_total (n : Int) (h : n < float_overflow_threshold) :
    is_primeE n = Except.ok (is_prime n) := by
  rw [is_primeE, is_prime]
  by_cases h2 : n < 2
  · rw [if_pos h2, if_pos h2]
  · have hpos : 0 < float_overflow_threshold := by
      norm_num [float_overflow_threshold]
    rw [if_neg h2, if_neg h2, math_sqrt_int,
      if_neg (by omega :
        ¬ (float_overflow_threshold ≤ n ∨ n ≤ -float_overflow_threshold)),
      if_neg (by omega : ¬ n < 0)]
    rfl

/-- Witness for the amended C9 at `n = -5`: below the overflow threshold,
and the guard keeps `sqrt` away from the negative input. -/
theorem is_primeE_total_witness :
    (-5 : Int) < float_overflow_threshold ∧
      is_primeE (-5) = Except.ok (is_prime (-5)) :=
  ⟨by decide, is_primeE_total (-5) (by decide)⟩

/-- C10: `count_prime_numbers` is monotone non-decreasing, and stepping the
bound by one adds `1` exactly when the old bound is prime. -/
theorem count_prime_numbers_monotone_step (a b : Int) (h : a ≤ b) :
    count_prime_numbers a ≤ count_prime_numbers b ∧
    count_prime_numbers (b + 1) - count_prime_numbers b =
      if is_prime b then 1 else 0 := by
  constructor
  · rw [count_prime_numbers_eq, count_prime_numbers_eq]
    exact_mod_cast Nat.count_monotone Nat.Prime (show a.toNat ≤ b.toNat by omega)
  · rw [count_prime_numbers_eq, count_prime_numbers_eq]
    rcases le_or_lt 0 b with hb | hb
    · have h1 : (b + 1).toNat = b.toNat + 1 := by omega
      rw [h1, Nat.count_succ]
      have h2 : is_prime b = decide b.toNat.Prime := by
        have h3 := is_prime_natCast b.toNat
        rw [Int.toNat_of_nonneg hb] at h3
        exact h3
      by_cases hp : b.toNat.Prime
      · simp only [h2, hp, if_true, decide_True]
        push_cast
        ring
      · simp only [h2, hp, if_false, decide_False]
        push_cast
        ring
    · have h1 : (b + 1).toNat = 0 := by omega
      have h0 : b.toNat = 0 := by omega
      have hf : is_prime b = false := is_prime_eq_false_of_lt_two b (by omega)
      rw [h1, h0, hf]
      simp

/-- Witness for C10 at `a = 3`, `b = 10`. -/
theorem count_prime_numbers_monotone_step_witness :
    (3 : Int) ≤ 10 ∧
      (count_prime_numbers 3 ≤ count_prime_numbers 10 ∧
        count_prime_numbers (10 + 1) - count_prime_numbers 10 =
          if is_prime 10 then 1 else 0) :=
  ⟨by decide, count_prime_numbers_monotone_step 3 10 (by decide)⟩
